import Mathlib

/-!
# sdl3-practice: the two demo programs `colored_window/cw.cpp` and `moving_rectangle/mr.cpp`

Shallow embedding of the two `main` functions.

* Values of the C++ types `float` and `double` are modelled by the rational numbers they
  denote.  Every arithmetic operation of the source computes the exact result and then
  rounds it; the rounding is a parameter (`FloatModel`).  The arithmetic of the program is
  the instance `ieee` (binary32 / binary64, round to nearest, ties to even).  The claims are
  proved for every model or for `ieee`.
  Infinities and NaN are not represented: the counters are 64 bit and every quantity of the
  frame loop stays far below the overflow threshold of `float`.
* The SDL library is the environment.  Its answers are collected in a `World`; a run of `main`
  is a function from the world to the list of library calls and stream writes that the
  program performs (its trace) together with the exit status.
-/

namespace SDL3Practice

/-! ## Arithmetic of `float` and `double` -/

/-- Arithmetic of the floating point types: `rnd` rounds an exact result to `float`,
`rndD` rounds an exact result to `double`, `sqrtf` is the library function `SDL_sqrtf`. -/
structure FloatModel where
  rnd : ℚ → ℚ
  rndD : ℚ → ℚ
  sqrtf : ℚ → ℚ

/-- The rational `q` is a value of type `float`: rounding leaves it unchanged. -/
def FloatModel.Represents (M : FloatModel) (q : ℚ) : Prop := M.rnd q = q

instance (M : FloatModel) (q : ℚ) : Decidable (M.Represents q) :=
  inferInstanceAs (Decidable (M.rnd q = q))

/-- Floor of the base 2 logarithm of a natural number, by repeated halving (`fuel` bounds
the number of halvings). -/
def log2Aux : ℕ → ℕ → ℕ
  | 0, _ => 0
  | fuel + 1, n => if n < 2 then 0 else log2Aux fuel (n / 2) + 1

/-- Floor of the base 2 logarithm of a positive natural number. -/
def log2 (n : ℕ) : ℕ := log2Aux n n

/-- Floor of the base 2 logarithm of the absolute value of a nonzero rational. -/
def ilog2 (q : ℚ) : ℤ :=
  let e0 : ℤ := (log2 q.num.natAbs : ℤ) - (log2 q.den : ℤ)
  if |q| < (2 : ℚ) ^ e0 then e0 - 1 else e0

/-- Round to the nearest integer, ties to the even one. -/
def roundHalfEven (q : ℚ) : ℤ :=
  let f := ⌊q⌋
  let r := q - f
  if r < 1 / 2 then f
  else if 1 / 2 < r then f + 1
  else if f % 2 = 0 then f else f + 1

/-- Round to nearest, ties to even, onto the binary format with `prec` significand bits and
least normal exponent `emin` (subnormal numbers included, overflow not represented). -/
def roundBinary (prec emin : ℤ) (q : ℚ) : ℚ :=
  if q = 0 then 0 else
    let e := max (ilog2 q) emin
    let ulp : ℚ := (2 : ℚ) ^ (e - (prec - 1))
    (roundHalfEven (q / ulp) : ℚ) * ulp

/-- Rounding to IEEE 754 binary32, the C++ type `float`. -/
def roundF32 : ℚ → ℚ := roundBinary 24 (-126)

/-- Rounding to IEEE 754 binary64, the C++ type `double`. -/
def roundF64 : ℚ → ℚ := roundBinary 53 (-1022)

/-- Digit by digit integer square root: `isqrtAux n b r` decides the bits below `b`. -/
def isqrtAux (n : ℕ) : ℕ → ℕ → ℕ
  | 0, r => r
  | b + 1, r =>
    if (r + 2 ^ b) * (r + 2 ^ b) ≤ n then isqrtAux n b (r + 2 ^ b) else isqrtAux n b r

/-- Integer square root, rounded down. -/
def isqrt (n : ℕ) : ℕ := isqrtAux n (log2 n / 2 + 1) 0

/-- The square root of a positive rational, correctly rounded to binary32 (round to nearest,
ties to even): what `SDL_sqrtf` returns on an IEEE 754 platform.  The argument of the only
call in `mr.cpp` is positive; for other arguments the model returns 0. -/
def sqrtF32 (q : ℚ) : ℚ :=
  if q ≤ 0 then 0 else
    let ulp : ℚ := (2 : ℚ) ^ (ilog2 q / 2 - 23)
    let t : ℚ := q / (ulp * ulp)
    let n : ℕ := isqrt ⌊t⌋.toNat
    let half : ℚ := ((n : ℚ) + 1 / 2) * ((n : ℚ) + 1 / 2)
    let m : ℕ := if t < half then n else if half < t then n + 1 else if n % 2 = 0 then n else n + 1
    (m : ℚ) * ulp

/-- IEEE 754 arithmetic: `float` is binary32, `double` is binary64, `SDL_sqrtf` is correctly
rounded. -/
def ieee : FloatModel := ⟨roundF32, roundF64, sqrtF32⟩

/-! ## Constants of `mr.cpp` (lines 5 to 12) -/

/-- Source: `const int SCREEN_WIDTH = 800;`. -/
def SCREEN_WIDTH : ℤ := 800

/-- Source: `const int SCREEN_HEIGHT = 600;`. -/
def SCREEN_HEIGHT : ℤ := 600

/-- Source: `const int SQUARE_SIZE = 50;`. -/
def SQUARE_SIZE : ℤ := 50

/-- Source: `const float MOVE_SPEED = 300.0f;`. -/
def MOVE_SPEED : ℚ := 300

/-! ## The movement integrator of `mr.cpp` (lines 83 to 115) -/

/-- The entries of the array returned by `SDL_GetKeyboardState` that `main` reads. -/
structure KeyStates where
  UP : Bool
  W : Bool
  DOWN : Bool
  S : Bool
  LEFT : Bool
  A : Bool
  RIGHT : Bool
  D : Bool
  deriving DecidableEq

/-- The library type `SDL_FRect`. -/
structure FRect where
  x : ℚ
  y : ℚ
  w : ℚ
  h : ℚ
  deriving DecidableEq

/-- Lines 84 to 98: `velocityX`, `velocityY` after the four key tests, in source order. -/
def sampleVelocity (k : KeyStates) : ℚ × ℚ :=
  let velocityX : ℚ := 0
  let velocityY : ℚ := 0
  let velocityY := if k.UP || k.W then -1 else velocityY
  let velocityY := if k.DOWN || k.S then 1 else velocityY
  let velocityX := if k.LEFT || k.A then -1 else velocityX
  let velocityX := if k.RIGHT || k.D then 1 else velocityX
  (velocityX, velocityY)

/-- Lines 100 to 107: the diagonal normalization, guarded by `length > 0.0001f`. -/
def normalizeVelocity (M : FloatModel) (v : ℚ × ℚ) : ℚ × ℚ :=
  if v.1 ≠ 0 ∧ v.2 ≠ 0 then
    let length := M.sqrtf (M.rnd (M.rnd (v.1 * v.1) + M.rnd (v.2 * v.2)))
    if length > M.rnd (1 / 10000) then (M.rnd (v.1 / length), M.rnd (v.2 / length)) else v
  else v

/-- Lines 84 to 107: the direction vector for a keyboard snapshot. -/
def direction (M : FloatModel) (k : KeyStates) : ℚ × ℚ :=
  normalizeVelocity M (sampleVelocity k)

/-- Lines 109 and 110: `squareRect.x += velocityX * MOVE_SPEED * static_cast<float>(deltaTime)`
and the same for `y`. -/
def advance (M : FloatModel) (v : ℚ × ℚ) (deltaTime : ℚ) (r : FRect) : FRect :=
  let r := { r with x := M.rnd (r.x + M.rnd (M.rnd (v.1 * MOVE_SPEED) * M.rnd deltaTime)) }
  let r := { r with y := M.rnd (r.y + M.rnd (M.rnd (v.2 * MOVE_SPEED) * M.rnd deltaTime)) }
  r

/-- Lines 112 to 115: the four bound tests, in source order. -/
def clampToScreen (M : FloatModel) (r : FRect) : FRect :=
  let r := if r.x < 0 then { r with x := 0 } else r
  let r := if r.y < 0 then { r with y := 0 } else r
  let r := if r.x > M.rnd ((SCREEN_WIDTH : ℚ) - r.w) then
    { r with x := M.rnd ((SCREEN_WIDTH : ℚ) - r.w) } else r
  let r := if r.y > M.rnd ((SCREEN_HEIGHT : ℚ) - r.h) then
    { r with y := M.rnd ((SCREEN_HEIGHT : ℚ) - r.h) } else r
  r

/-- Lines 84 to 115: one step of the integrator, from the keyboard snapshot, the elapsed time
`deltaTime` (a `double`) and the rectangle to the rectangle that is drawn. -/
def integratorStep (M : FloatModel) (k : KeyStates) (deltaTime : ℚ) (r : FRect) : FRect :=
  clampToScreen M (advance M (direction M k) deltaTime r)

/-- The operations of lines 109 and 110 that involve the elapsed time are exact in `M` for
the velocity `v`, the elapsed time `deltaTime` and the rectangle `r`: the cast of `deltaTime`
to `float`, the product with the scaled velocity and the addition to the coordinate do not
round, on either axis. -/
def advanceIsExact (M : FloatModel) (v : ℚ × ℚ) (deltaTime : ℚ) (r : FRect) : Prop :=
  M.Represents deltaTime ∧
  M.Represents (M.rnd (v.1 * MOVE_SPEED) * deltaTime) ∧
  M.Represents (r.x + M.rnd (v.1 * MOVE_SPEED) * deltaTime) ∧
  M.Represents (M.rnd (v.2 * MOVE_SPEED) * deltaTime) ∧
  M.Represents (r.y + M.rnd (v.2 * MOVE_SPEED) * deltaTime)

instance (M : FloatModel) (v : ℚ × ℚ) (deltaTime : ℚ) (r : FRect) :
    Decidable (advanceIsExact M v deltaTime r) :=
  inferInstanceAs (Decidable (M.Represents deltaTime ∧
    M.Represents (M.rnd (v.1 * MOVE_SPEED) * deltaTime) ∧
    M.Represents (r.x + M.rnd (v.1 * MOVE_SPEED) * deltaTime) ∧
    M.Represents (M.rnd (v.2 * MOVE_SPEED) * deltaTime) ∧
    M.Represents (r.y + M.rnd (v.2 * MOVE_SPEED) * deltaTime)))

/-- The square of `mr.cpp` at position `(x, y)`: width and height are `(float)SQUARE_SIZE`. -/
def square (x y : ℚ) : FRect := ⟨x, y, (SQUARE_SIZE : ℚ), (SQUARE_SIZE : ℚ)⟩

/-- Clamp as the glossary of the specification words it: a value outside the closed range
`[lo, hi]` is replaced by the nearest boundary. -/
def clampSpec (lo hi v : ℚ) : ℚ := if v < lo then lo else if hi < v then hi else v

/-- The integrator as the specification words it (steps 3 and 4): per axis, the old position
plus direction times speed constant times elapsed time, clamped to
`[0, screen dimension - object dimension]`.  The arithmetic is that of `M`. -/
def integratorSpec (M : FloatModel) (d : ℚ × ℚ) (t : ℚ) (p : ℚ × ℚ) : ℚ × ℚ :=
  (clampSpec 0 (M.rnd ((800 : ℚ) - 50)) (M.rnd (p.1 + M.rnd (M.rnd (d.1 * 300) * M.rnd t))),
   clampSpec 0 (M.rnd ((600 : ℚ) - 50)) (M.rnd (p.2 + M.rnd (M.rnd (d.2 * 300) * M.rnd t))))

/-! ## The library as environment -/

/-- A non-null pointer returned by the library (`SDL_Window*`, `SDL_Renderer*`). -/
abbrev Handle := ℕ

/-- What `main` looks at in an `SDL_Event`: whether `event.type == SDL_EVENT_QUIT`. -/
inductive Event
  | QUIT
  | other (type : ℕ)
  deriving DecidableEq

/-- What the library answers during one iteration of the outer `while (!quit)` loop: the
performance counter and frequency, the events pending in the queue (drained by
`SDL_PollEvent`) and the keyboard snapshot.  `cw.cpp` only uses the events. -/
structure Frame where
  counter : ℕ
  frequency : ℕ
  events : List Event
  keys : KeyStates
  deriving DecidableEq

/-- The answers of the library during one run.  `init` is the value returned by `SDL_Init`,
which in the SDL3 API is a `bool` (`true` on success), like the value of `SDL_SetRenderVSync`
that `mr.cpp` tests at line 47 and like the entries of the `const bool*` keyboard array of
line 83.  `window` and `renderer` are `none` for a null result.  `frames` is the finite part
of the run that is observed: one entry per iteration of the outer loop. -/
structure World where
  init : Bool
  error : String
  window : Option Handle
  renderer : Option String → Option Handle
  vsync : Bool
  numRenderDrivers : ℕ
  renderDriver : ℕ → String
  startCounter : ℕ
  frames : List Frame

/-- One observable action of `main`: a call of a library function or a line written to
`std::cerr` or `std::cout`. -/
inductive Call
  | SDL_Init
  | SDL_GetError
  | cerr (text : String)
  | cout (text : String)
  | SDL_CreateWindow (title : String) (w h : ℤ) (alwaysOnTop : Bool)
  | SDL_CreateRenderer (window : Handle) (name : Option String)
  | SDL_SetRenderVSync (renderer : Handle) (vsync : ℤ)
  | SDL_GetNumRenderDrivers
  | SDL_GetRenderDriver (index : ℕ)
  | SDL_SetRenderDrawBlendMode (renderer : Handle)
  | SDL_GetPerformanceCounter
  | SDL_GetPerformanceFrequency
  | SDL_PollEvent (result : Option Event)
  | SDL_GetKeyboardState
  | SDL_SetRenderDrawColor (renderer : Handle) (r g b a : ℕ)
  | SDL_RenderClear (renderer : Handle)
  | SDL_RenderFillRect (renderer : Handle) (rect : FRect)
  | SDL_RenderPresent (renderer : Handle)
  | SDL_DestroyRenderer (renderer : Handle)
  | SDL_DestroyWindow (window : Handle)
  | SDL_Quit
  deriving DecidableEq

/-- The draw calls: `set_draw_color`, `clear`, `fill_rect`, `present`. -/
def Call.isDraw : Call → Bool
  | .SDL_SetRenderDrawColor _ _ _ _ _ => true
  | .SDL_RenderClear _ => true
  | .SDL_RenderFillRect _ _ => true
  | .SDL_RenderPresent _ => true
  | _ => false

/-- A run of `main`: the actions performed, in order, and the value returned by `main`;
`exit = none` when the program is still inside its loop at the end of the observed frames. -/
structure Outcome where
  trace : List Call
  exit : Option ℤ
  deriving DecidableEq

/-- The run `o` preceded by the actions `cs`. -/
def Outcome.after (cs : List Call) (o : Outcome) : Outcome := ⟨cs ++ o.trace, o.exit⟩

/-- Integral promotion of a C++ `bool`, as in the comparison `SDL_Init(...) < 0`. -/
def boolToInt (b : Bool) : ℤ := if b then 1 else 0

/-- Subtraction of `Uint64` values: `currentCounter - lastCounter`. -/
def u64sub (a b : ℕ) : ℕ := (a % 2 ^ 64 + 2 ^ 64 - b % 2 ^ 64) % 2 ^ 64

/-- The inner loop `while (SDL_PollEvent(&event))` of both programs (`mr.cpp` lines 77 to 81,
`cw.cpp` lines 37 to 41): the calls made while the pending events are drained, and the value
of `quit` afterwards. -/
def drainEvents : List Event → Bool → List Call × Bool
  | [], quit => ([Call.SDL_PollEvent none], quit)
  | e :: es, quit =>
    let quit := if e = Event.QUIT then true else quit
    (Call.SDL_PollEvent (some e) :: (drainEvents es quit).1, (drainEvents es quit).2)

/-! ## `moving_rectangle/mr.cpp` -/

/-- Lines 73 to 123: the calls of one iteration of the frame loop, the rectangle after it and
the value of `quit` after it.  The performance frequency is positive in every SDL
implementation; the quotient by a zero frequency (infinite or NaN in C++) is not represented. -/
def frameBody (M : FloatModel) (renderer : Handle) (lastCounter : ℕ) (squareRect : FRect)
    (f : Frame) : List Call × FRect × Bool :=
  let currentCounter := f.counter
  let deltaTime := M.rndD (M.rndD (u64sub currentCounter lastCounter) / M.rndD f.frequency)
  let polled := drainEvents f.events false
  let squareRect := integratorStep M f.keys deltaTime squareRect
  ([Call.SDL_GetPerformanceCounter, Call.SDL_GetPerformanceFrequency] ++ polled.1 ++
    [Call.SDL_GetKeyboardState,
     Call.SDL_SetRenderDrawColor renderer 0 200 150 255,
     Call.SDL_RenderClear renderer,
     Call.SDL_SetRenderDrawColor renderer 255 0 0 255,
     Call.SDL_RenderFillRect renderer squareRect,
     Call.SDL_RenderPresent renderer],
   squareRect, polled.2)

/-- Lines 72 to 124: the loop `while (!quit)`, entered with `quit = false`.  The result is the
list of calls and whether the loop was left within the observed frames. -/
def frameLoop (M : FloatModel) (renderer : Handle) : ℕ → FRect → List Frame → List Call × Bool
  | _, _, [] => ([], false)
  | lastCounter, squareRect, f :: fs =>
    let body := frameBody M renderer lastCounter squareRect f
    if body.2.2 then (body.1, true)
    else (body.1 ++ (frameLoop M renderer f.counter body.2.1 fs).1,
          (frameLoop M renderer f.counter body.2.1 fs).2)

/-- Lines 55 to 58: the loop that prints the available render drivers, from index `i` on,
when `todo` more drivers remain (`SDL_GetNumRenderDrivers` is called before every test of
the loop condition and answers `i + todo`). -/
def listRenderDrivers (renderDriver : ℕ → String) : ℕ → ℕ → List Call
  | 0, _ => [Call.SDL_GetNumRenderDrivers]
  | todo + 1, i =>
    [Call.SDL_GetNumRenderDrivers, Call.SDL_GetRenderDriver i,
      Call.cout ("- " ++ renderDriver i)] ++ listRenderDrivers renderDriver todo (i + 1)

/-- Line 60: the initial rectangle, centred on the screen. -/
def initialRect (M : FloatModel) : FRect :=
  ⟨M.rnd (M.rnd ((SCREEN_WIDTH - SQUARE_SIZE : ℤ) : ℚ) / 2),
   M.rnd (M.rnd ((SCREEN_HEIGHT - SQUARE_SIZE : ℤ) : ℚ) / 2),
   M.rnd (SQUARE_SIZE : ℚ), M.rnd (SQUARE_SIZE : ℚ)⟩

/-- Lines 46 to 131 of `main`: everything after a renderer has been obtained. -/
def mr_run (M : FloatModel) (w : World) (window renderer : Handle) : Outcome :=
  let vsync : List Call :=
    if w.vsync then
      [Call.SDL_SetRenderVSync renderer 1, Call.cout "VSync was enabled successfully."]
    else
      [Call.SDL_SetRenderVSync renderer 1, Call.SDL_GetError,
       Call.cout ("Warning: Could not enable VSync. SDL_Error: " ++ w.error),
       Call.cout "Smoothness might be affected by screen tearing or uncapped frame rates."]
  let drivers : List Call :=
    Call.cout "Available Render Drivers:" ::
      listRenderDrivers w.renderDriver w.numRenderDrivers 0
  let loop := frameLoop M renderer w.startCounter (initialRect M) w.frames
  let start : List Call :=
    vsync ++ drivers ++ [Call.SDL_SetRenderDrawBlendMode renderer, Call.SDL_GetPerformanceCounter]
  if loop.2 then
    ⟨start ++ loop.1 ++
      [Call.SDL_DestroyRenderer renderer, Call.SDL_DestroyWindow window, Call.SDL_Quit], some 0⟩
  else ⟨start ++ loop.1, none⟩

/-- The function `main` of `mr.cpp`. -/
def mr_main (M : FloatModel) (w : World) : Outcome :=
  if boolToInt w.init < 0 then
    ⟨[Call.SDL_Init, Call.SDL_GetError, Call.cerr ("SDL_Init Error: " ++ w.error)], some 1⟩
  else
    match w.window with
    | none =>
      ⟨[Call.SDL_Init, Call.SDL_CreateWindow "SDL3 Smooth Movement" SCREEN_WIDTH SCREEN_HEIGHT false,
        Call.SDL_GetError, Call.cerr ("SDL_CreateWindow Error: " ++ w.error), Call.SDL_Quit], some 1⟩
    | some window =>
      match w.renderer (some "vulkan") with
      | some renderer =>
        (mr_run M w window renderer).after
          [Call.SDL_Init,
           Call.SDL_CreateWindow "SDL3 Smooth Movement" SCREEN_WIDTH SCREEN_HEIGHT false,
           Call.SDL_CreateRenderer window (some "vulkan")]
      | none =>
        match w.renderer (some "opengl") with
        | none =>
          ⟨[Call.SDL_Init,
            Call.SDL_CreateWindow "SDL3 Smooth Movement" SCREEN_WIDTH SCREEN_HEIGHT false,
            Call.SDL_CreateRenderer window (some "vulkan"),
            Call.SDL_GetError,
            Call.cerr ("SDL_CreateRenderer Error (trying Vulkan): " ++ w.error),
            Call.cerr "Falling back to default renderer...",
            Call.SDL_CreateRenderer window (some "opengl"),
            Call.SDL_GetError,
            Call.cerr ("SDL_CreateRenderer Error (fallback): " ++ w.error),
            Call.SDL_DestroyWindow window, Call.SDL_Quit], some 1⟩
        | some renderer =>
          (mr_run M w window renderer).after
            [Call.SDL_Init,
             Call.SDL_CreateWindow "SDL3 Smooth Movement" SCREEN_WIDTH SCREEN_HEIGHT false,
             Call.SDL_CreateRenderer window (some "vulkan"),
             Call.SDL_GetError,
             Call.cerr ("SDL_CreateRenderer Error (trying Vulkan): " ++ w.error),
             Call.cerr "Falling back to default renderer...",
             Call.SDL_CreateRenderer window (some "opengl")]

/-! ## `colored_window/cw.cpp` -/

/-- Lines 36 to 42 of `cw.cpp`: the loop `while (!quit)`, entered with `quit = false`; every
iteration drains the pending events. -/
def idleLoop : List Frame → List Call × Bool
  | [] => ([], false)
  | f :: fs =>
    if (drainEvents f.events false).2 then ((drainEvents f.events false).1, true)
    else ((drainEvents f.events false).1 ++ (idleLoop fs).1, (idleLoop fs).2)

/-- Lines 28 to 47 of `cw.cpp`: everything after the renderer has been obtained. -/
def cw_run (w : World) (window renderer : Handle) : Outcome :=
  let start : List Call :=
    [Call.SDL_SetRenderDrawBlendMode renderer,
     Call.SDL_SetRenderDrawColor renderer 56 69 90 255,
     Call.SDL_RenderClear renderer,
     Call.SDL_RenderPresent renderer]
  let loop := idleLoop w.frames
  if loop.2 then ⟨start ++ loop.1 ++ [Call.SDL_DestroyWindow window, Call.SDL_Quit], some 0⟩
  else ⟨start ++ loop.1, none⟩

/-- The function `main` of `cw.cpp`. -/
def cw_main (w : World) : Outcome :=
  if boolToInt w.init < 0 then
    ⟨[Call.SDL_Init, Call.SDL_GetError, Call.cerr ("SDL_Init Error: " ++ w.error)], some 1⟩
  else
    match w.window with
    | none =>
      ⟨[Call.SDL_Init, Call.SDL_CreateWindow "SDL3 Window" 800 600 true,
        Call.SDL_GetError, Call.cerr ("SDL_CreateWindow Error: " ++ w.error), Call.SDL_Quit], some 1⟩
    | some window =>
      match w.renderer none with
      | none =>
        ⟨[Call.SDL_Init, Call.SDL_CreateWindow "SDL3 Window" 800 600 true,
          Call.SDL_CreateRenderer window none,
          Call.SDL_GetError, Call.cerr ("SDL_CreateRenderer Error: " ++ w.error),
          Call.SDL_DestroyWindow window, Call.SDL_Quit], some 1⟩
      | some renderer =>
        (cw_run w window renderer).after
          [Call.SDL_Init, Call.SDL_CreateWindow "SDL3 Window" 800 600 true,
           Call.SDL_CreateRenderer window none]

/-! ## Trace predicates and concrete inputs used below -/

/-- The teardown calls: `destroy_renderer`, `destroy_window`, `quit_subsystem`. -/
def Call.isTeardown : Call → Bool
  | .SDL_DestroyRenderer _ => true
  | .SDL_DestroyWindow _ => true
  | .SDL_Quit => true
  | _ => false

/-- The property that claim C6 states of a trace: no draw call is issued after the first
`SDL_PollEvent` that delivers a quit event. -/
def quitStopsDrawing (t : List Call) : Bool :=
  ((t.dropWhile (fun c => c != Call.SDL_PollEvent (some Event.QUIT))).drop 1).all
    (fun c => !c.isDraw)

/-- No key held. -/
def keysNone : KeyStates := ⟨false, false, false, false, false, false, false, false⟩

/-- Only the right arrow key held. -/
def keysRight : KeyStates := { keysNone with RIGHT := true }

/-- The up and left arrow keys held. -/
def keysUpLeft : KeyStates := { keysNone with UP := true, LEFT := true }

/-- The up and right arrow keys held. -/
def keysUpRight : KeyStates := { keysNone with UP := true, RIGHT := true }

/-- All four arrow keys held. -/
def keysArrows : KeyStates := { keysNone with UP := true, DOWN := true, LEFT := true, RIGHT := true }

/-- A run in which every setup call succeeds (window handle 1, renderer handle 2, no render
driver listed) and the first drain of the event queue delivers a quit event. -/
def quitWorld : World :=
  { init := true, error := "", window := some 1, renderer := fun _ => some 2, vsync := true,
    numRenderDrivers := 0, renderDriver := fun _ => "", startCounter := 0,
    frames := [⟨1000, 1000, [Event.QUIT], keysNone⟩] }

/-- A run in which `SDL_Init` reports failure (returns `false`) and, the video subsystem
being unavailable, `SDL_CreateWindow` returns null. -/
def initFailsWorld : World :=
  { quitWorld with init := false, error := "No available video device", window := none }

/-- A run in which the first renderer driver is refused and the fallback driver succeeds. -/
def fallbackWorld : World :=
  { quitWorld with renderer := fun name => if name = some "opengl" then some 2 else none }

/-! ## The float model agrees with IEEE 754 on the values the program uses -/

theorem log2Aux_spec (fuel n : ℕ) (h : n ≤ fuel) : n < 2 ^ (log2Aux fuel n + 1) := by
  induction fuel generalizing n with
  | zero =>
    have : n = 0 := by omega
    subst this
    simp [log2Aux]
  | succ fuel ih =>
    unfold log2Aux
    by_cases h2 : n < 2
    · rw [if_pos h2]
      simpa using h2
    · rw [if_neg h2]
      have h3 : n / 2 ≤ fuel := by omega
      have := ih (n / 2) h3
      rw [pow_succ]
      omega

theorem isqrtAux_spec (n b r : ℕ) (h1 : r * r ≤ n) (h2 : n < (r + 2 ^ b) * (r + 2 ^ b)) :
    isqrtAux n b r * isqrtAux n b r ≤ n ∧ n < (isqrtAux n b r + 1) * (isqrtAux n b r + 1) := by
  induction b generalizing r with
  | zero => simpa [isqrtAux] using ⟨h1, h2⟩
  | succ b ih =>
    unfold isqrtAux
    by_cases hc : (r + 2 ^ b) * (r + 2 ^ b) ≤ n
    · rw [if_pos hc]
      apply ih _ hc
      have : r + 2 ^ b + 2 ^ b = r + 2 ^ (b + 1) := by rw [pow_succ]; ring
      rw [this]
      exact h2
    · rw [if_neg hc]
      exact ih r h1 (by omega)

/-- The function `isqrt` is the integer square root. -/
theorem isqrt_spec (n : ℕ) : isqrt n * isqrt n ≤ n ∧ n < (isqrt n + 1) * (isqrt n + 1) := by
  unfold isqrt
  apply isqrtAux_spec
  · simp
  · have h := log2Aux_spec n n le_rfl
    have hle : log2Aux n n + 1 ≤ 2 * (log2Aux n n / 2 + 1) := by omega
    have := Nat.pow_le_pow_right (by norm_num : 0 < 2) hle
    calc n < 2 ^ (log2Aux n n + 1) := h
      _ ≤ 2 ^ (2 * (log2Aux n n / 2 + 1)) := this
      _ = (0 + 2 ^ (log2 n / 2 + 1)) * (0 + 2 ^ (log2 n / 2 + 1)) := by
        rw [zero_add, ← pow_add, two_mul]; rfl

/-- The model of `SDL_sqrtf(2.0f)` is the binary32 number `0x3FB504F3`, within half a unit in
the last place of the real square root of 2. -/
theorem sqrtF32_two : sqrtF32 2 = 11863283 / 8388608 ∧
    |((11863283 / 8388608 : ℚ) : ℝ) - Real.sqrt 2| ≤ 1 / 2 ^ 24 := by
  refine ⟨by decide!, ?_⟩
  rw [abs_le]
  push_cast
  constructor
  · have : Real.sqrt 2 ≤ 11863283 / 8388608 + 1 / 2 ^ 24 := by
      rw [Real.sqrt_le_left (by norm_num)]
      norm_num
    linarith
  · have : (11863283 / 8388608 : ℝ) - 1 / 2 ^ 24 ≤ Real.sqrt 2 := by
      apply Real.le_sqrt_of_sq_le
      norm_num
    linarith

/-- The constants of the program in binary32: the literal `0.0001f` is `0x38D1B717`, and
0, 1, 50, 300, 550, 750 and 800 are represented exactly. -/
theorem ieee_constants :
    roundF32 (1 / 10000) = 13743895 / 137438953472 ∧
    ieee.Represents 0 ∧ ieee.Represents 1 ∧ ieee.Represents 50 ∧ ieee.Represents 300 ∧
    ieee.Represents 550 ∧ ieee.Represents 750 ∧ ieee.Represents 800 := by
  refine ⟨by decide!, by decide!, by decide!, by decide!, by decide!, by decide!, by decide!,
    by decide!⟩

/-- The rounding functions agree with IEEE 754 on known values: 1/3, 1/10 and 1/60 in
binary32, the two ties 16777217 and 16777219 (to even), a subnormal result, and 1/10 and
1/3 in binary64. -/
theorem roundBinary_examples :
    roundF32 (1 / 3) = 11184811 / 33554432 ∧
    roundF32 (1 / 10) = 13421773 / 134217728 ∧
    roundF32 (1 / 60) = 8947849 / 536870912 ∧
    roundF32 16777217 = 16777216 ∧
    roundF32 16777219 = 16777220 ∧
    roundF32 (1 / 10 ^ 45) = 1 / 2 ^ 149 ∧
    roundF64 (1 / 10) = 3602879701896397 / 36028797018963968 ∧
    roundF64 (1 / 3) = 6004799503160661 / 18014398509481984 := by
  refine ⟨by decide!, by decide!, by decide!, by decide!, by decide!, by decide!, by decide!,
    by decide!⟩

/-! ## The integrator, field by field -/

theorem clampToScreen_x (M : FloatModel) (r : FRect) :
    (clampToScreen M r).x =
      if (if r.x < 0 then 0 else r.x) > M.rnd ((SCREEN_WIDTH : ℚ) - r.w) then
        M.rnd ((SCREEN_WIDTH : ℚ) - r.w)
      else (if r.x < 0 then 0 else r.x) := by
  rcases r with ⟨x, y, w, h⟩
  simp only [clampToScreen]
  by_cases h1 : x < 0 <;> by_cases h2 : y < 0 <;> simp only [h1, h2, if_true, if_false] <;>
    split_ifs <;> rfl

theorem clampToScreen_y (M : FloatModel) (r : FRect) :
    (clampToScreen M r).y =
      if (if r.y < 0 then 0 else r.y) > M.rnd ((SCREEN_HEIGHT : ℚ) - r.h) then
        M.rnd ((SCREEN_HEIGHT : ℚ) - r.h)
      else (if r.y < 0 then 0 else r.y) := by
  rcases r with ⟨x, y, w, h⟩
  simp only [clampToScreen]
  by_cases h1 : x < 0 <;> by_cases h2 : y < 0 <;> simp only [h1, h2, if_true, if_false] <;>
    split_ifs <;> rfl

theorem clampToScreen_w (M : FloatModel) (r : FRect) : (clampToScreen M r).w = r.w := by
  rcases r with ⟨x, y, w, h⟩
  simp only [clampToScreen]
  by_cases h1 : x < 0 <;> by_cases h2 : y < 0 <;> simp only [h1, h2, if_true, if_false] <;>
    split_ifs <;> rfl

theorem clampToScreen_h (M : FloatModel) (r : FRect) : (clampToScreen M r).h = r.h := by
  rcases r with ⟨x, y, w, h⟩
  simp only [clampToScreen]
  by_cases h1 : x < 0 <;> by_cases h2 : y < 0 <;> simp only [h1, h2, if_true, if_false] <;>
    split_ifs <;> rfl

theorem integratorStep_x (M : FloatModel) (k : KeyStates) (t : ℚ) (r : FRect) :
    (integratorStep M k t r).x =
      if (if M.rnd (r.x + M.rnd (M.rnd ((direction M k).1 * MOVE_SPEED) * M.rnd t)) < 0 then 0
          else M.rnd (r.x + M.rnd (M.rnd ((direction M k).1 * MOVE_SPEED) * M.rnd t)))
          > M.rnd ((SCREEN_WIDTH : ℚ) - r.w) then
        M.rnd ((SCREEN_WIDTH : ℚ) - r.w)
      else (if M.rnd (r.x + M.rnd (M.rnd ((direction M k).1 * MOVE_SPEED) * M.rnd t)) < 0 then 0
          else M.rnd (r.x + M.rnd (M.rnd ((direction M k).1 * MOVE_SPEED) * M.rnd t))) := by
  rw [integratorStep, clampToScreen_x]
  rfl

theorem integratorStep_y (M : FloatModel) (k : KeyStates) (t : ℚ) (r : FRect) :
    (integratorStep M k t r).y =
      if (if M.rnd (r.y + M.rnd (M.rnd ((direction M k).2 * MOVE_SPEED) * M.rnd t)) < 0 then 0
          else M.rnd (r.y + M.rnd (M.rnd ((direction M k).2 * MOVE_SPEED) * M.rnd t)))
          > M.rnd ((SCREEN_HEIGHT : ℚ) - r.h) then
        M.rnd ((SCREEN_HEIGHT : ℚ) - r.h)
      else (if M.rnd (r.y + M.rnd (M.rnd ((direction M k).2 * MOVE_SPEED) * M.rnd t)) < 0 then 0
          else M.rnd (r.y + M.rnd (M.rnd ((direction M k).2 * MOVE_SPEED) * M.rnd t))) := by
  rw [integratorStep, clampToScreen_y]
  rfl

theorem integratorStep_w (M : FloatModel) (k : KeyStates) (t : ℚ) (r : FRect) :
    (integratorStep M k t r).w = r.w := by
  rw [integratorStep, clampToScreen_w]
  rfl

theorem integratorStep_h (M : FloatModel) (k : KeyStates) (t : ℚ) (r : FRect) :
    (integratorStep M k t r).h = r.h := by
  rw [integratorStep, clampToScreen_h]
  rfl

theorem FRect.ext_fields (a b : FRect) (hx : a.x = b.x) (hy : a.y = b.y) (hw : a.w = b.w)
    (hh : a.h = b.h) : a = b := by
  cases a
  cases b
  simp_all

theorem screen_minus_square (M : FloatModel) (h750 : M.Represents 750) (h550 : M.Represents 550) :
    M.rnd ((SCREEN_WIDTH : ℚ) - (SQUARE_SIZE : ℚ)) = 750 ∧
    M.rnd ((SCREEN_HEIGHT : ℚ) - (SQUARE_SIZE : ℚ)) = 550 := by
  have e1 : ((SCREEN_WIDTH : ℚ) - (SQUARE_SIZE : ℚ)) = 750 := by
    norm_num [SCREEN_WIDTH, SQUARE_SIZE]
  have e2 : ((SCREEN_HEIGHT : ℚ) - (SQUARE_SIZE : ℚ)) = 550 := by
    norm_num [SCREEN_HEIGHT, SQUARE_SIZE]
  rw [e1, e2]
  exact ⟨h750, h550⟩

theorem clampSpec_eq (hi v : ℚ) (hhi : 0 ≤ hi) :
    (if (if v < 0 then 0 else v) > hi then hi else (if v < 0 then 0 else v)) =
      clampSpec 0 hi v := by
  unfold clampSpec
  split_ifs <;> first | rfl | linarith

theorem axis_two_steps (a hi x t1 t2 : ℚ) (hx : 0 ≤ x ∧ x ≤ hi) (ht1 : 0 ≤ t1) (ht2 : 0 ≤ t2) :
    (if (if (if (if x + a * t1 < 0 then 0 else x + a * t1) > hi then hi
              else (if x + a * t1 < 0 then 0 else x + a * t1)) + a * t2 < 0 then 0
         else (if (if x + a * t1 < 0 then 0 else x + a * t1) > hi then hi
              else (if x + a * t1 < 0 then 0 else x + a * t1)) + a * t2) > hi then hi
     else (if (if (if x + a * t1 < 0 then 0 else x + a * t1) > hi then hi
              else (if x + a * t1 < 0 then 0 else x + a * t1)) + a * t2 < 0 then 0
         else (if (if x + a * t1 < 0 then 0 else x + a * t1) > hi then hi
              else (if x + a * t1 < 0 then 0 else x + a * t1)) + a * t2)) =
    (if (if x + a * (t1 + t2) < 0 then 0 else x + a * (t1 + t2)) > hi then hi
     else (if x + a * (t1 + t2) < 0 then 0 else x + a * (t1 + t2))) := by
  have hd : a * (t1 + t2) = a * t1 + a * t2 := by ring
  rw [hd]
  rcases le_total 0 a with ha | ha
  · have h1 : 0 ≤ a * t1 := mul_nonneg ha ht1
    have h2 : 0 ≤ a * t2 := mul_nonneg ha ht2
    split_ifs <;> linarith
  · have h1 : a * t1 ≤ 0 := mul_nonpos_of_nonpos_of_nonneg ha ht1
    have h2 : a * t2 ≤ 0 := mul_nonpos_of_nonpos_of_nonneg ha ht2
    split_ifs <;> linarith

theorem sampleVelocity_cases (k : KeyStates) :
    sampleVelocity k ∈
      [((0 : ℚ), (0 : ℚ)), (0, 1), (0, -1), (1, 0), (-1, 0), (1, 1), (1, -1), (-1, 1),
       (-1, -1)] := by
  by_cases h1 : (k.UP || k.W) = true <;> by_cases h2 : (k.DOWN || k.S) = true <;>
    by_cases h3 : (k.LEFT || k.A) = true <;> by_cases h4 : (k.RIGHT || k.D) = true <;>
    simp [sampleVelocity, h1, h2, h3, h4]

/-- The nine direction vectors of the program in binary32 arithmetic. -/
theorem direction_ieee_cases (k : KeyStates) :
    direction ieee k ∈
      [((0 : ℚ), (0 : ℚ)), (0, 1), (0, -1), (1, 0), (-1, 0),
       (11863283 / 16777216, 11863283 / 16777216), (11863283 / 16777216, -(11863283 / 16777216)),
       (-(11863283 / 16777216), 11863283 / 16777216),
       (-(11863283 / 16777216), -(11863283 / 16777216))] := by
  have h := sampleVelocity_cases k
  have e1 : normalizeVelocity ieee (0, 0) = (0, 0) := by decide!
  have e2 : normalizeVelocity ieee (0, 1) = (0, 1) := by decide!
  have e3 : normalizeVelocity ieee (0, -1) = (0, -1) := by decide!
  have e4 : normalizeVelocity ieee (1, 0) = (1, 0) := by decide!
  have e5 : normalizeVelocity ieee (-1, 0) = (-1, 0) := by decide!
  have e6 : normalizeVelocity ieee (1, 1) = (11863283 / 16777216, 11863283 / 16777216) := by
    decide!
  have e7 : normalizeVelocity ieee (1, -1) =
      (11863283 / 16777216, -(11863283 / 16777216)) := by decide!
  have e8 : normalizeVelocity ieee (-1, 1) =
      (-(11863283 / 16777216), 11863283 / 16777216) := by decide!
  have e9 : normalizeVelocity ieee (-1, -1) =
      (-(11863283 / 16777216), -(11863283 / 16777216)) := by decide!
  simp only [List.mem_cons, List.mem_singleton, List.not_mem_nil, or_false] at h ⊢
  unfold direction
  rcases h with h | h | h | h | h | h | h | h | h <;> rw [h]
  · rw [e1]; simp
  · rw [e2]; simp
  · rw [e3]; simp
  · rw [e4]; simp
  · rw [e5]; simp
  · rw [e6]; simp
  · rw [e7]; simp
  · rw [e8]; simp
  · rw [e9]; simp

theorem unit_magnitude_diag :
    (1 : ℝ) - 1 / 10000 ≤
      Real.sqrt ((11863283 / 16777216 : ℝ) ^ 2 + (11863283 / 16777216 : ℝ) ^ 2) ∧
    Real.sqrt ((11863283 / 16777216 : ℝ) ^ 2 + (11863283 / 16777216 : ℝ) ^ 2) ≤
      1 + 1 / 10000 := by
  constructor
  · apply Real.le_sqrt_of_sq_le
    norm_num
  · rw [Real.sqrt_le_left (by norm_num)]
    norm_num

theorem inv_sqrt_two_close :
    |(-(11863283 / 16777216) : ℝ) - (-(1 / Real.sqrt 2))| ≤ 1 / 10 ^ 7 := by
  have h1 : (1 : ℝ) / Real.sqrt 2 = Real.sqrt (1 / 2) := by
    rw [Real.sqrt_div (by norm_num), Real.sqrt_one]
  rw [h1, abs_le]
  constructor
  · have : (11863283 / 16777216 : ℝ) - 1 / 10 ^ 7 ≤ Real.sqrt (1 / 2) := by
      apply Real.le_sqrt_of_sq_le
      norm_num
    linarith
  · have : Real.sqrt (1 / 2) ≤ 11863283 / 16777216 + 1 / 10 ^ 7 := by
      rw [Real.sqrt_le_left (by norm_num)]
      norm_num
    linarith

/-! ## Claims about the integrator -/

/-- Claim C1.  Bounds preservation of one integrator step.  In every float arithmetic that
represents 750 and 550 exactly (exact arithmetic and IEEE binary32 among them), for every
keyboard state, every elapsed time at least 0 and every start position with
`0 ≤ x ≤ 800 - 50` and `0 ≤ y ≤ 600 - 50`, the position after the update and the clamp
satisfies `0 ≤ x ≤ 750` and `0 ≤ y ≤ 550`. -/
theorem integrator_keeps_position_in_bounds (M : FloatModel)
    (h750 : M.Represents 750) (h550 : M.Represents 550)
    (k : KeyStates) (deltaTime x y : ℚ) (_ht : 0 ≤ deltaTime)
    (_hx : 0 ≤ x ∧ x ≤ 800 - 50) (_hy : 0 ≤ y ∧ y ≤ 600 - 50) :
    0 ≤ (integratorStep M k deltaTime (square x y)).x ∧
    (integratorStep M k deltaTime (square x y)).x ≤ 750 ∧
    0 ≤ (integratorStep M k deltaTime (square x y)).y ∧
    (integratorStep M k deltaTime (square x y)).y ≤ 550 := by
  obtain ⟨e1, e2⟩ := screen_minus_square M h750 h550
  rw [integratorStep_x, integratorStep_y]
  simp only [square, e1, e2]
  refine ⟨?_, ?_, ?_, ?_⟩ <;> split_ifs <;> linarith

/-- Witness of C1: binary32 arithmetic, right arrow held for one second from the centre. -/
theorem integrator_keeps_position_in_bounds_witness :
    ieee.Represents 750 ∧ ieee.Represents 550 ∧ (0 : ℚ) ≤ 1 ∧
    ((0 : ℚ) ≤ 375 ∧ (375 : ℚ) ≤ 800 - 50) ∧ ((0 : ℚ) ≤ 275 ∧ (275 : ℚ) ≤ 600 - 50) ∧
    (0 ≤ (integratorStep ieee keysRight 1 (square 375 275)).x ∧
     (integratorStep ieee keysRight 1 (square 375 275)).x ≤ 750 ∧
     0 ≤ (integratorStep ieee keysRight 1 (square 375 275)).y ∧
     (integratorStep ieee keysRight 1 (square 375 275)).y ≤ 550) :=
  ⟨by decide!, by decide!, by norm_num, by norm_num, by norm_num,
   integrator_keeps_position_in_bounds ieee (by decide!) (by decide!) keysRight 1 375 275
     (by norm_num) (by norm_num) (by norm_num)⟩

/-- Claim C2.  Direction vector magnitude.  In binary32 arithmetic, for every combination of
the eight movement keys the direction vector after key sampling and diagonal normalization
has Euclidean magnitude 0 or within `[1 - 1e-4, 1 + 1e-4]`; with up and left held both
components are within `1e-7` of `-1 / sqrt 2`. -/
theorem direction_magnitude (k : KeyStates) :
    (Real.sqrt (((direction ieee k).1 : ℝ) ^ 2 + ((direction ieee k).2 : ℝ) ^ 2) = 0 ∨
      ((1 : ℝ) - 1 / 10000 ≤
          Real.sqrt (((direction ieee k).1 : ℝ) ^ 2 + ((direction ieee k).2 : ℝ) ^ 2) ∧
        Real.sqrt (((direction ieee k).1 : ℝ) ^ 2 + ((direction ieee k).2 : ℝ) ^ 2) ≤
          1 + 1 / 10000)) ∧
    |((direction ieee keysUpLeft).1 : ℝ) - (-(1 / Real.sqrt 2))| ≤ 1 / 10 ^ 7 ∧
    |((direction ieee keysUpLeft).2 : ℝ) - (-(1 / Real.sqrt 2))| ≤ 1 / 10 ^ 7 := by
  have hul : direction ieee keysUpLeft =
      (-(11863283 / 16777216), -(11863283 / 16777216)) := by decide!
  refine ⟨?_, ?_, ?_⟩
  · have h := direction_ieee_cases k
    simp only [List.mem_cons, List.mem_singleton, List.not_mem_nil, or_false] at h
    have hd := unit_magnitude_diag
    rcases h with h | h | h | h | h | h | h | h | h <;> rw [h]
    · left; simp
    · right; norm_num
    · right; norm_num
    · right; norm_num
    · right; norm_num
    · right; push_cast; exact hd
    · right; push_cast; rw [neg_sq]; exact hd
    · right; push_cast; rw [neg_sq]; exact hd
    · right; push_cast; rw [neg_sq]; exact hd
  · rw [hul]; push_cast; exact inv_sqrt_two_close
  · rw [hul]; push_cast; exact inv_sqrt_two_close

/-- Counterexample to C3 as stated: from (375, 275) with only right held and one second
elapsed the new X is 675, not 750, in binary32 arithmetic and also when no operation rounds
(the model whose rounding functions are the identity). -/
theorem scenario_right_is_not_750 :
    ¬ ((integratorStep ieee keysRight 1 (square 375 275)).x = 750) ∧
    ¬ ((integratorStep ⟨id, id, sqrtF32⟩ keysRight 1 (square 375 275)).x = 750) := by
  constructor <;> decide!

/-- Claim C3, amended.  One integrator step equals the reference definition: in every float
arithmetic that represents 750 and 550 exactly, for every keyboard state with direction
vector `d`, every elapsed time `t` at least 0 and every start position `p`, the new position
is, per axis, `clamp (p + d * 300 * t)` to `[0, 800 - 50]` on X and `[0, 600 - 50]` on Y.
From (375, 275) with only right held and `t = 1` the new X is `min (375 + 300) 750 = 675`
and Y stays 275. -/
theorem integrator_matches_spec (M : FloatModel)
    (h750 : M.Represents 750) (h550 : M.Represents 550)
    (k : KeyStates) (t x y : ℚ) (_ht : 0 ≤ t) :
    ((integratorStep M k t (square x y)).x, (integratorStep M k t (square x y)).y) =
      integratorSpec M (direction M k) t (x, y) ∧
    integratorStep ieee keysRight 1 (square 375 275) = square (min (375 + 300) 750) 275 ∧
    integratorStep ⟨id, id, sqrtF32⟩ keysRight 1 (square 375 275) = square 675 275 := by
  refine ⟨?_, by decide!, by decide!⟩
  obtain ⟨e1, e2⟩ := screen_minus_square M h750 h550
  have e3 : M.rnd ((800 : ℚ) - 50) = 750 := by
    have : ((800 : ℚ) - 50) = 750 := by norm_num
    rw [this]; exact h750
  have e4 : M.rnd ((600 : ℚ) - 50) = 550 := by
    have : ((600 : ℚ) - 50) = 550 := by norm_num
    rw [this]; exact h550
  rw [integratorStep_x, integratorStep_y]
  simp only [square, e1, e2, integratorSpec, e3, e4, MOVE_SPEED]
  rw [clampSpec_eq _ _ (by norm_num), clampSpec_eq _ _ (by norm_num)]

/-- Witness of C3 (amended): the scenario of the specification, in binary32 arithmetic. -/
theorem integrator_matches_spec_witness :
    ieee.Represents 750 ∧ ieee.Represents 550 ∧ (0 : ℚ) ≤ 1 ∧
    ((integratorStep ieee keysRight 1 (square 375 275)).x,
      (integratorStep ieee keysRight 1 (square 375 275)).y) =
      integratorSpec ieee (direction ieee keysRight) 1 (375, 275) ∧
    integratorSpec ieee (direction ieee keysRight) 1 (375, 275) = (675, 275) :=
  ⟨by decide!, by decide!, by norm_num,
   (integrator_matches_spec ieee (by decide!) (by decide!) keysRight 1 375 275
     (by norm_num)).1, by decide!⟩

/-- Claim C4.  Directional precedence.  Whatever the other keys, with an up key and a down
key held the Y component before normalization is +1, as with the up keys released, and with
a left key and a right key held the X component is +1, as with the left keys released; the
whole integrator step gives the same rectangle in both cases. -/
theorem directional_precedence (M : FloatModel) (k : KeyStates) (t : ℚ) (r : FRect) :
    ((k.UP || k.W) = true → (k.DOWN || k.S) = true →
      (sampleVelocity k).2 = 1 ∧
      (sampleVelocity { k with UP := false, W := false }).2 = 1 ∧
      integratorStep M k t r = integratorStep M { k with UP := false, W := false } t r) ∧
    ((k.LEFT || k.A) = true → (k.RIGHT || k.D) = true →
      (sampleVelocity k).1 = 1 ∧
      (sampleVelocity { k with LEFT := false, A := false }).1 = 1 ∧
      integratorStep M k t r = integratorStep M { k with LEFT := false, A := false } t r) := by
  constructor
  · intro _ hdown
    have e : sampleVelocity k = sampleVelocity { k with UP := false, W := false } := by
      simp only [sampleVelocity, hdown, if_true, Bool.or_self]
    refine ⟨?_, ?_, ?_⟩
    · simp only [sampleVelocity, hdown, if_true]
    · simp only [sampleVelocity, hdown, if_true]
    · simp only [integratorStep, direction, e]
  · intro _ hright
    have e : sampleVelocity k = sampleVelocity { k with LEFT := false, A := false } := by
      simp only [sampleVelocity, hright, if_true, Bool.or_self]
    refine ⟨?_, ?_, ?_⟩
    · simp only [sampleVelocity, hright, if_true]
    · simp only [sampleVelocity, hright, if_true]
    · simp only [integratorStep, direction, e]

/-- Witness of C4: all four arrow keys held, binary32 arithmetic, one sixtieth of a second
from the centre. -/
theorem directional_precedence_witness :
    ((keysArrows.UP || keysArrows.W) = true ∧ (keysArrows.DOWN || keysArrows.S) = true ∧
      (sampleVelocity keysArrows).2 = 1 ∧
      (sampleVelocity { keysArrows with UP := false, W := false }).2 = 1 ∧
      integratorStep ieee keysArrows (1 / 60) (square 375 275) =
        integratorStep ieee { keysArrows with UP := false, W := false } (1 / 60)
          (square 375 275)) ∧
    ((keysArrows.LEFT || keysArrows.A) = true ∧ (keysArrows.RIGHT || keysArrows.D) = true ∧
      (sampleVelocity keysArrows).1 = 1 ∧
      (sampleVelocity { keysArrows with LEFT := false, A := false }).1 = 1 ∧
      integratorStep ieee keysArrows (1 / 60) (square 375 275) =
        integratorStep ieee { keysArrows with LEFT := false, A := false } (1 / 60)
          (square 375 275)) :=
  ⟨⟨by decide, by decide,
    (directional_precedence ieee keysArrows (1 / 60) (square 375 275)).1 (by decide)
      (by decide)⟩,
   ⟨by decide, by decide,
    (directional_precedence ieee keysArrows (1 / 60) (square 375 275)).2 (by decide)
      (by decide)⟩⟩

/-- Claim C5.  Idempotence at zero elapsed time.  In every float arithmetic that represents
0, 750 and 550 exactly, for every keyboard state and every start position within bounds
(`0 ≤ x ≤ 750`, `0 ≤ y ≤ 550`, both coordinates values of type `float`), the integrator step
with elapsed time 0 returns exactly the start position. -/
theorem zero_elapsed_time_keeps_position (M : FloatModel)
    (h0 : M.Represents 0) (h750 : M.Represents 750) (h550 : M.Represents 550)
    (k : KeyStates) (x y : ℚ) (hxf : M.Represents x) (hyf : M.Represents y)
    (hx : 0 ≤ x ∧ x ≤ 750) (hy : 0 ≤ y ∧ y ≤ 550) :
    integratorStep M k 0 (square x y) = square x y := by
  obtain ⟨e1, e2⟩ := screen_minus_square M h750 h550
  have h0 : M.rnd 0 = 0 := h0
  have hxf : M.rnd x = x := hxf
  have hyf : M.rnd y = y := hyf
  apply FRect.ext_fields
  · rw [integratorStep_x]
    simp only [square, e1, h0, mul_zero, add_zero, hxf]
    split_ifs <;> linarith
  · rw [integratorStep_y]
    simp only [square, e2, h0, mul_zero, add_zero, hyf]
    split_ifs <;> linarith
  · rw [integratorStep_w]
  · rw [integratorStep_h]

/-- Witness of C5: binary32 arithmetic, up and left held, start at the centre. -/
theorem zero_elapsed_time_keeps_position_witness :
    ieee.Represents 0 ∧ ieee.Represents 750 ∧ ieee.Represents 550 ∧
    ieee.Represents 375 ∧ ieee.Represents 275 ∧
    ((0 : ℚ) ≤ 375 ∧ (375 : ℚ) ≤ 750) ∧ ((0 : ℚ) ≤ 275 ∧ (275 : ℚ) ≤ 550) ∧
    integratorStep ieee keysUpLeft 0 (square 375 275) = square 375 275 :=
  ⟨by decide!, by decide!, by decide!, by decide!, by decide!, by norm_num, by norm_num,
   zero_elapsed_time_keeps_position ieee (by decide!) (by decide!) (by decide!) keysUpLeft
     375 275 (by decide!) (by decide!) (by norm_num) (by norm_num)⟩

theorem integratorStep_x_of_exact (M : FloatModel) (k : KeyStates) (t : ℚ) (r : FRect)
    (h : advanceIsExact M (direction M k) t r) :
    (integratorStep M k t r).x =
      if (if r.x + M.rnd ((direction M k).1 * MOVE_SPEED) * t < 0 then 0
          else r.x + M.rnd ((direction M k).1 * MOVE_SPEED) * t)
          > M.rnd ((SCREEN_WIDTH : ℚ) - r.w) then
        M.rnd ((SCREEN_WIDTH : ℚ) - r.w)
      else (if r.x + M.rnd ((direction M k).1 * MOVE_SPEED) * t < 0 then 0
          else r.x + M.rnd ((direction M k).1 * MOVE_SPEED) * t) := by
  obtain ⟨h1, h2, h3, _, _⟩ := h
  have h1 : M.rnd t = t := h1
  have h2 : M.rnd (M.rnd ((direction M k).1 * MOVE_SPEED) * t) =
      M.rnd ((direction M k).1 * MOVE_SPEED) * t := h2
  have h3 : M.rnd (r.x + M.rnd ((direction M k).1 * MOVE_SPEED) * t) =
      r.x + M.rnd ((direction M k).1 * MOVE_SPEED) * t := h3
  rw [integratorStep_x, h1, h2, h3]

theorem integratorStep_y_of_exact (M : FloatModel) (k : KeyStates) (t : ℚ) (r : FRect)
    (h : advanceIsExact M (direction M k) t r) :
    (integratorStep M k t r).y =
      if (if r.y + M.rnd ((direction M k).2 * MOVE_SPEED) * t < 0 then 0
          else r.y + M.rnd ((direction M k).2 * MOVE_SPEED) * t)
          > M.rnd ((SCREEN_HEIGHT : ℚ) - r.h) then
        M.rnd ((SCREEN_HEIGHT : ℚ) - r.h)
      else (if r.y + M.rnd ((direction M k).2 * MOVE_SPEED) * t < 0 then 0
          else r.y + M.rnd ((direction M k).2 * MOVE_SPEED) * t) := by
  obtain ⟨h1, _, _, h4, h5⟩ := h
  have h1 : M.rnd t = t := h1
  have h4 : M.rnd (M.rnd ((direction M k).2 * MOVE_SPEED) * t) =
      M.rnd ((direction M k).2 * MOVE_SPEED) * t := h4
  have h5 : M.rnd (r.y + M.rnd ((direction M k).2 * MOVE_SPEED) * t) =
      r.y + M.rnd ((direction M k).2 * MOVE_SPEED) * t := h5
  rw [integratorStep_y, h1, h4, h5]

/-- In a model whose rounding is the identity the exactness conditions hold for all
arguments. -/
theorem advanceIsExact_of_no_rounding (M : FloatModel) (hid : ∀ q, M.rnd q = q) (v : ℚ × ℚ)
    (t : ℚ) (r : FRect) : advanceIsExact M v t r :=
  ⟨hid _, hid _, hid _, hid _, hid _⟩

/-- The exactness conditions of C10 cannot be dropped: in binary32 arithmetic, with up and
left held from (100, 5), a step of 1/60 s followed by a step of 1/30 s ends one unit in the
last place away from the single step of 1/60 + 1/30 s. -/
theorem two_steps_differ_when_rounding :
    (integratorStep ieee keysUpLeft (1 / 30)
        (integratorStep ieee keysUpLeft (1 / 60) (square 100 5))).x = 11716971 / 131072 ∧
    (integratorStep ieee keysUpLeft (1 / 60 + 1 / 30) (square 100 5)).x = 2929243 / 32768 ∧
    ¬ advanceIsExact ieee (direction ieee keysUpLeft) (1 / 60) (square 100 5) := by
  refine ⟨by decide!, by decide!, by decide!⟩

/-- Claim C10.  Frame-rate independence of the integrator when the arithmetic is exact.  In
every float arithmetic that represents 750 and 550, for every keyboard state, every start
position within bounds and all elapsed times `t1`, `t2` at least 0: if the operations on the
elapsed time (its cast to `float`, the products with the scaled velocity and the additions
to the coordinates) do not round in the three steps involved, then two consecutive steps
with `t1` and then `t2` give the same rectangle as one step with `t1 + t2`.  The condition
always holds when the rounding is the identity (`advanceIsExact_of_no_rounding`); in
binary32 it holds at the witness below and cannot be dropped
(`two_steps_differ_when_rounding`). -/
theorem frame_rate_independence (M : FloatModel)
    (h750 : M.Represents 750) (h550 : M.Represents 550)
    (k : KeyStates) (x y t1 t2 : ℚ)
    (hx : 0 ≤ x ∧ x ≤ 750) (hy : 0 ≤ y ∧ y ≤ 550) (ht1 : 0 ≤ t1) (ht2 : 0 ≤ t2)
    (e1 : advanceIsExact M (direction M k) t1 (square x y))
    (e2 : advanceIsExact M (direction M k) t2 (integratorStep M k t1 (square x y)))
    (e3 : advanceIsExact M (direction M k) (t1 + t2) (square x y)) :
    integratorStep M k t2 (integratorStep M k t1 (square x y)) =
      integratorStep M k (t1 + t2) (square x y) := by
  obtain ⟨w1, w2⟩ := screen_minus_square M h750 h550
  apply FRect.ext_fields
  · rw [integratorStep_x_of_exact M k t2 _ e2, integratorStep_x_of_exact M k (t1 + t2) _ e3,
      integratorStep_w, integratorStep_x_of_exact M k t1 _ e1]
    simp only [square, w1]
    exact axis_two_steps (M.rnd ((direction M k).1 * MOVE_SPEED)) 750 x t1 t2 hx ht1 ht2
  · rw [integratorStep_y_of_exact M k t2 _ e2, integratorStep_y_of_exact M k (t1 + t2) _ e3,
      integratorStep_h, integratorStep_y_of_exact M k t1 _ e1]
    simp only [square, w2]
    exact axis_two_steps (M.rnd ((direction M k).2 * MOVE_SPEED)) 550 y t1 t2 hy ht1 ht2
  · simp only [integratorStep_w]
  · simp only [integratorStep_h]

/-- Witness of C10: binary32 arithmetic, up and right held, start at (1/2, 1/2), two frames
of 1/64 s.  The rectangle moves right along the diagonal in both steps and is held at the
upper screen edge by the clamp; two steps and the single step of 1/32 s end at the same
rectangle. -/
theorem frame_rate_independence_witness :
    ieee.Represents 750 ∧ ieee.Represents 550 ∧
    ((0 : ℚ) ≤ 1 / 2 ∧ (1 / 2 : ℚ) ≤ 750) ∧ ((0 : ℚ) ≤ 1 / 2 ∧ (1 / 2 : ℚ) ≤ 550) ∧
    (0 : ℚ) ≤ 1 / 64 ∧ (0 : ℚ) ≤ 1 / 64 ∧
    advanceIsExact ieee (direction ieee keysUpRight) (1 / 64) (square (1 / 2) (1 / 2)) ∧
    advanceIsExact ieee (direction ieee keysUpRight) (1 / 64)
      (integratorStep ieee keysUpRight (1 / 64) (square (1 / 2) (1 / 2))) ∧
    advanceIsExact ieee (direction ieee keysUpRight) (1 / 64 + 1 / 64)
      (square (1 / 2) (1 / 2)) ∧
    integratorStep ieee keysUpRight (1 / 64)
        (integratorStep ieee keysUpRight (1 / 64) (square (1 / 2) (1 / 2))) =
      integratorStep ieee keysUpRight (1 / 64 + 1 / 64) (square (1 / 2) (1 / 2)) ∧
    integratorStep ieee keysUpRight (1 / 64 + 1 / 64) (square (1 / 2) (1 / 2)) =
      square (14950861 / 2097152) 0 :=
  ⟨by decide!, by decide!, by norm_num, by norm_num, by norm_num, by norm_num,
   by decide!, by decide!, by decide!,
   frame_rate_independence ieee (by decide!) (by decide!) keysUpRight (1 / 2) (1 / 2)
     (1 / 64) (1 / 64) (by norm_num) (by norm_num) (by norm_num) (by norm_num)
     (by decide!) (by decide!) (by decide!),
   by decide!⟩

/-! ## The event loops -/

theorem drainEvents_quit (es : List Event) (q : Bool) :
    (drainEvents es q).2 = true ↔ (q = true ∨ Event.QUIT ∈ es) := by
  induction es generalizing q with
  | nil => simp [drainEvents]
  | cons e es ih =>
    simp only [drainEvents, ih, List.mem_cons]
    by_cases he : e = Event.QUIT
    · simp [he]
    · have : ¬ Event.QUIT = e := fun h => he h.symm
      simp [he, this]

theorem drainEvents_calls (es : List Event) (q : Bool) :
    (drainEvents es q).1 =
      es.map (fun e => Call.SDL_PollEvent (some e)) ++ [Call.SDL_PollEvent none] := by
  induction es generalizing q with
  | nil => simp [drainEvents]
  | cons e es ih => simp [drainEvents, ih]

theorem drainEvents_no_quit (es : List Event) (q : Bool) (h : Event.QUIT ∉ es) :
    Call.SDL_PollEvent (some Event.QUIT) ∉ (drainEvents es q).1 := by
  induction es generalizing q with
  | nil => simp [drainEvents]
  | cons e es ih =>
    simp only [List.mem_cons, not_or] at h
    simp only [drainEvents, List.mem_cons, Call.SDL_PollEvent.injEq, Option.some.injEq, not_or]
    exact ⟨h.1, ih _ h.2⟩

theorem drainEvents_split (es : List Event) (q : Bool) (h : Event.QUIT ∈ es) :
    ∃ before polls,
      (drainEvents es q).1 =
        before ++ Call.SDL_PollEvent (some Event.QUIT) :: (polls ++ [Call.SDL_PollEvent none]) ∧
      Call.SDL_PollEvent (some Event.QUIT) ∉ before ∧
      ∀ c ∈ polls, ∃ e, c = Call.SDL_PollEvent (some e) := by
  induction es generalizing q with
  | nil => simp at h
  | cons e es ih =>
    by_cases he : e = Event.QUIT
    · subst he
      refine ⟨[], es.map (fun e => Call.SDL_PollEvent (some e)), ?_, by simp, ?_⟩
      · simp [drainEvents_calls]
      · intro c hc
        simp only [List.mem_map] at hc
        obtain ⟨e, _, rfl⟩ := hc
        exact ⟨e, rfl⟩
    · have hmem : Event.QUIT ∈ es := by
        rcases List.mem_cons.1 h with h | h
        · exact absurd h.symm he
        · exact h
      obtain ⟨before, polls, h1, h2, h3⟩ := ih (if e = Event.QUIT then true else q) hmem
      refine ⟨Call.SDL_PollEvent (some e) :: before, polls, ?_, ?_, h3⟩
      · simp only [drainEvents, h1, List.cons_append]
      · simp only [List.mem_cons, Call.SDL_PollEvent.injEq, Option.some.injEq, not_or]
        exact ⟨fun h => he h.symm, h2⟩

theorem drainEvents_teardown (es : List Event) (q : Bool) :
    (drainEvents es q).1.filter Call.isTeardown = [] := by
  rw [drainEvents_calls]
  simp [List.filter_eq_nil_iff, Call.isTeardown]

/-- The frame loop of `mr.cpp` is left within the observed frames exactly when one of them
delivers a quit event. -/
theorem frameLoop_left (M : FloatModel) (renderer : Handle) (lastCounter : ℕ) (rect : FRect)
    (fs : List Frame) :
    (frameLoop M renderer lastCounter rect fs).2 = true ↔ ∃ f ∈ fs, Event.QUIT ∈ f.events := by
  induction fs generalizing lastCounter rect with
  | nil => simp [frameLoop]
  | cons f fs ih =>
    by_cases hq : Event.QUIT ∈ f.events
    · have : (frameBody M renderer lastCounter rect f).2.2 = true := by
        simp [frameBody, drainEvents_quit, hq]
      simp [frameLoop, this, hq]
    · have : (frameBody M renderer lastCounter rect f).2.2 = false := by
        rw [← Bool.not_eq_true]
        simp [frameBody, drainEvents_quit, hq]
      simp [frameLoop, this, hq, ih]

theorem frameLoop_split (M : FloatModel) (renderer : Handle) (lastCounter : ℕ) (rect : FRect)
    (fs : List Frame) (h : ∃ f ∈ fs, Event.QUIT ∈ f.events) :
    ∃ before polls drawn,
      (frameLoop M renderer lastCounter rect fs).1 =
        before ++ Call.SDL_PollEvent (some Event.QUIT) ::
          (polls ++ [Call.SDL_PollEvent none, Call.SDL_GetKeyboardState,
            Call.SDL_SetRenderDrawColor renderer 0 200 150 255,
            Call.SDL_RenderClear renderer,
            Call.SDL_SetRenderDrawColor renderer 255 0 0 255,
            Call.SDL_RenderFillRect renderer drawn,
            Call.SDL_RenderPresent renderer]) ∧
      Call.SDL_PollEvent (some Event.QUIT) ∉ before ∧
      ∀ c ∈ polls, ∃ e, c = Call.SDL_PollEvent (some e) := by
  induction fs generalizing lastCounter rect with
  | nil => simp at h
  | cons f fs ih =>
    by_cases hq : Event.QUIT ∈ f.events
    · have hb : (frameBody M renderer lastCounter rect f).2.2 = true := by
        simp [frameBody, drainEvents_quit, hq]
      obtain ⟨before, polls, h1, h2, h3⟩ := drainEvents_split f.events false hq
      refine ⟨[Call.SDL_GetPerformanceCounter, Call.SDL_GetPerformanceFrequency] ++ before,
        polls, (frameBody M renderer lastCounter rect f).2.1, ?_, ?_, h3⟩
      · simp only [frameLoop, hb, if_true]
        simp only [frameBody, h1]
        simp
      · simpa using h2
    · have hb : (frameBody M renderer lastCounter rect f).2.2 = false := by
        rw [← Bool.not_eq_true]
        simp [frameBody, drainEvents_quit, hq]
      have hrest : ∃ f ∈ fs, Event.QUIT ∈ f.events := by
        obtain ⟨g, hg, hgq⟩ := h
        rcases List.mem_cons.1 hg with rfl | hg
        · exact absurd hgq hq
        · exact ⟨g, hg, hgq⟩
      obtain ⟨before, polls, drawn, h1, h2, h3⟩ :=
        ih f.counter (frameBody M renderer lastCounter rect f).2.1 hrest
      refine ⟨(frameBody M renderer lastCounter rect f).1 ++ before, polls, drawn, ?_, ?_, h3⟩
      · simp only [frameLoop, hb, h1]
        simp
      · have := drainEvents_no_quit f.events false hq
        simp only [List.mem_append, not_or]
        refine ⟨?_, h2⟩
        simp [frameBody, this]

theorem frameLoop_no_quit (M : FloatModel) (renderer : Handle) (lastCounter : ℕ) (rect : FRect)
    (fs : List Frame) (h : ¬ ∃ f ∈ fs, Event.QUIT ∈ f.events) :
    Call.SDL_PollEvent (some Event.QUIT) ∉ (frameLoop M renderer lastCounter rect fs).1 := by
  induction fs generalizing lastCounter rect with
  | nil => simp [frameLoop]
  | cons f fs ih =>
    have hq : Event.QUIT ∉ f.events := fun hq => h ⟨f, List.mem_cons_self _ _, hq⟩
    have hrest : ¬ ∃ g ∈ fs, Event.QUIT ∈ g.events := fun ⟨g, hg, hgq⟩ =>
      h ⟨g, List.mem_cons_of_mem _ hg, hgq⟩
    have hb : (frameBody M renderer lastCounter rect f).2.2 = false := by
      rw [← Bool.not_eq_true]
      simp [frameBody, drainEvents_quit, hq]
    have hd := drainEvents_no_quit f.events false hq
    have := ih f.counter (frameBody M renderer lastCounter rect f).2.1 hrest
    simp only [frameLoop, hb, Bool.false_eq_true, if_false, List.mem_append, not_or]
    refine ⟨?_, this⟩
    simp [frameBody, hd]

theorem frameLoop_teardown (M : FloatModel) (renderer : Handle) (lastCounter : ℕ) (rect : FRect)
    (fs : List Frame) :
    (frameLoop M renderer lastCounter rect fs).1.filter Call.isTeardown = [] := by
  induction fs generalizing lastCounter rect with
  | nil => simp [frameLoop]
  | cons f fs ih =>
    have hb : (frameBody M renderer lastCounter rect f).1.filter Call.isTeardown = [] := by
      simp [frameBody, List.filter_append, drainEvents_teardown, Call.isTeardown]
    rw [frameLoop]
    split_ifs
    · exact hb
    · simp [List.filter_append, hb, ih]

theorem idleLoop_teardown (fs : List Frame) : (idleLoop fs).1.filter Call.isTeardown = [] := by
  induction fs with
  | nil => simp [idleLoop]
  | cons f fs ih =>
    rw [idleLoop]
    split_ifs
    · exact drainEvents_teardown _ _
    · simp [List.filter_append, drainEvents_teardown, ih]

theorem listRenderDrivers_no_poll (names : ℕ → String) (todo i : ℕ) (r : Option Event) :
    Call.SDL_PollEvent r ∉ listRenderDrivers names todo i := by
  induction todo generalizing i with
  | zero => simp [listRenderDrivers]
  | succ n ih => simp [listRenderDrivers, ih]

theorem listRenderDrivers_teardown (names : ℕ → String) (todo i : ℕ) :
    (listRenderDrivers names todo i).filter Call.isTeardown = [] := by
  induction todo generalizing i with
  | zero => simp [listRenderDrivers, Call.isTeardown]
  | succ n ih => simp [listRenderDrivers, List.filter_append, ih, Call.isTeardown]

theorem first_split_unique {α : Type} (q : α) :
    ∀ (p1 s1 p2 s2 : List α), p1 ++ q :: s1 = p2 ++ q :: s2 → q ∉ p1 → q ∉ p2 →
      p1 = p2 ∧ s1 = s2
  | [], s1, [], s2, h, _, _ => by simpa using h
  | [], s1, b :: p2, s2, h, _, h2 => by
    simp only [List.nil_append, List.cons_append, List.cons.injEq] at h
    exact absurd (by rw [h.1]; exact List.mem_cons_self _ _) h2
  | a :: p1, s1, [], s2, h, h1, _ => by
    simp only [List.nil_append, List.cons_append, List.cons.injEq] at h
    exact absurd (by rw [← h.1]; exact List.mem_cons_self _ _) h1
  | a :: p1, s1, b :: p2, s2, h, h1, h2 => by
    simp only [List.cons_append, List.cons.injEq] at h
    have ih := first_split_unique q p1 s1 p2 s2 h.2
      (fun hm => h1 (List.mem_cons_of_mem _ hm)) (fun hm => h2 (List.mem_cons_of_mem _ hm))
    exact ⟨by rw [h.1, ih.1], ih.2⟩

/-! ## The two `main` functions -/

/-- The comparison `SDL_Init(SDL_INIT_VIDEO) < 0` of both programs is false for both values
of the `bool` that `SDL_Init` returns. -/
theorem init_check_never_fires (b : Bool) : ¬ boolToInt b < 0 := by
  cases b <;> decide

theorem mr_run_exit (M : FloatModel) (w : World) (window renderer : Handle) :
    (mr_run M w window renderer).exit =
      if (∃ f ∈ w.frames, Event.QUIT ∈ f.events) then some 0 else none := by
  unfold mr_run
  simp only []
  by_cases h : (frameLoop M renderer w.startCounter (initialRect M) w.frames).2 = true
  · rw [if_pos h, if_pos ((frameLoop_left _ _ _ _ _).1 h)]
  · rw [if_neg h, if_neg (fun h2 => h ((frameLoop_left _ _ _ _ _).2 h2))]

theorem mr_run_split (M : FloatModel) (w : World) (window renderer : Handle)
    (setup pre post : List Call)
    (hs : Call.SDL_PollEvent (some Event.QUIT) ∉ setup)
    (h : setup ++ (mr_run M w window renderer).trace =
      pre ++ Call.SDL_PollEvent (some Event.QUIT) :: post)
    (hfirst : Call.SDL_PollEvent (some Event.QUIT) ∉ pre) :
    ∃ polls drawn,
      (∀ c ∈ polls, ∃ e, c = Call.SDL_PollEvent (some e)) ∧
      post = polls ++ [Call.SDL_PollEvent none, Call.SDL_GetKeyboardState,
        Call.SDL_SetRenderDrawColor renderer 0 200 150 255,
        Call.SDL_RenderClear renderer,
        Call.SDL_SetRenderDrawColor renderer 255 0 0 255,
        Call.SDL_RenderFillRect renderer drawn,
        Call.SDL_RenderPresent renderer,
        Call.SDL_DestroyRenderer renderer, Call.SDL_DestroyWindow window, Call.SDL_Quit] ∧
      (mr_run M w window renderer).exit = some 0 := by
  have hdrv :=
    listRenderDrivers_no_poll w.renderDriver w.numRenderDrivers 0 (some Event.QUIT)
  by_cases hq : ∃ f ∈ w.frames, Event.QUIT ∈ f.events
  · have hl := (frameLoop_left M renderer w.startCounter (initialRect M) w.frames).2 hq
    obtain ⟨before, polls, drawn, h1, h2, h3⟩ :=
      frameLoop_split M renderer w.startCounter (initialRect M) w.frames hq
    refine ⟨polls, drawn, h3, ?_, ?_⟩
    · simp only [mr_run, hl, if_true, h1] at h
      have key := first_split_unique (Call.SDL_PollEvent (some Event.QUIT))
        (setup ++ ((if w.vsync then
            [Call.SDL_SetRenderVSync renderer 1, Call.cout "VSync was enabled successfully."]
          else
            [Call.SDL_SetRenderVSync renderer 1, Call.SDL_GetError,
             Call.cout ("Warning: Could not enable VSync. SDL_Error: " ++ w.error),
             Call.cout
               "Smoothness might be affected by screen tearing or uncapped frame rates."]) ++
          (Call.cout "Available Render Drivers:" ::
            listRenderDrivers w.renderDriver w.numRenderDrivers 0) ++
          [Call.SDL_SetRenderDrawBlendMode renderer, Call.SDL_GetPerformanceCounter]) ++ before)
        (polls ++ [Call.SDL_PollEvent none, Call.SDL_GetKeyboardState,
          Call.SDL_SetRenderDrawColor renderer 0 200 150 255,
          Call.SDL_RenderClear renderer,
          Call.SDL_SetRenderDrawColor renderer 255 0 0 255,
          Call.SDL_RenderFillRect renderer drawn,
          Call.SDL_RenderPresent renderer,
          Call.SDL_DestroyRenderer renderer, Call.SDL_DestroyWindow window, Call.SDL_Quit])
        pre post (by rw [← h]; simp) (by split_ifs <;> simp [hs, hdrv, h2]) hfirst
      exact key.2.symm
    · simp [mr_run_exit, hq]
  · have hl : (frameLoop M renderer w.startCounter (initialRect M) w.frames).2 = false := by
      rw [← Bool.not_eq_true]
      exact fun hl => hq ((frameLoop_left _ _ _ _ _).1 hl)
    have hn := frameLoop_no_quit M renderer w.startCounter (initialRect M) w.frames hq
    have hm : Call.SDL_PollEvent (some Event.QUIT) ∈
        setup ++ (mr_run M w window renderer).trace := by rw [h]; simp
    exfalso
    simp only [mr_run, hl, List.mem_append] at hm
    rcases hm with hm | hm
    · exact hs hm
    · simp only [Bool.false_eq_true, if_false, List.mem_append] at hm
      rcases hm with hm | hm
      · split_ifs at hm <;> simp [hdrv] at hm
      · exact hn hm

/-- The teardown calls of `mr.cpp`, on every path: `SDL_Quit` alone when no window was
obtained, `SDL_DestroyWindow` and `SDL_Quit` when no renderer was obtained, the three calls
in the order renderer, window, subsystem once the loop has been left, and none while the
program is still in its loop. -/
theorem mr_main_teardown (M : FloatModel) (w : World) :
    (mr_main M w).trace.filter Call.isTeardown =
      match w.window with
      | none => [Call.SDL_Quit]
      | some window =>
        match w.renderer (some "vulkan"), w.renderer (some "opengl") with
        | none, none => [Call.SDL_DestroyWindow window, Call.SDL_Quit]
        | some renderer, _ | none, some renderer =>
          if (mr_main M w).exit = none then []
          else
            [Call.SDL_DestroyRenderer renderer, Call.SDL_DestroyWindow window,
             Call.SDL_Quit] := by
  have hrun : ∀ window renderer,
      (mr_run M w window renderer).trace.filter Call.isTeardown =
        if (mr_run M w window renderer).exit = none then []
        else
          [Call.SDL_DestroyRenderer renderer, Call.SDL_DestroyWindow window,
           Call.SDL_Quit] := by
    intro window renderer
    unfold mr_run
    simp only []
    split_ifs <;>
      simp_all [List.filter_append, frameLoop_teardown, listRenderDrivers_teardown,
        Call.isTeardown]
  unfold mr_main
  rw [if_neg (init_check_never_fires w.init)]
  rcases w.window with _ | window
  · simp [Call.isTeardown]
  · rcases w.renderer (some "vulkan") with _ | r1
    · rcases w.renderer (some "opengl") with _ | r2
      · simp [Call.isTeardown]
      · simp [Outcome.after, List.filter_append, hrun, Call.isTeardown]
    · simp [Outcome.after, List.filter_append, hrun, Call.isTeardown]

/-- The teardown calls of `cw.cpp`, on every path: the renderer is never destroyed. -/
theorem cw_main_teardown (w : World) :
    (cw_main w).trace.filter Call.isTeardown =
      match w.window with
      | none => [Call.SDL_Quit]
      | some window =>
        match w.renderer none with
        | none => [Call.SDL_DestroyWindow window, Call.SDL_Quit]
        | some _ =>
          if (cw_main w).exit = none then []
          else [Call.SDL_DestroyWindow window, Call.SDL_Quit] := by
  unfold cw_main
  rw [if_neg (init_check_never_fires w.init)]
  rcases w.window with _ | window
  · simp [Call.isTeardown]
  · rcases w.renderer none with _ | r1
    · simp [Call.isTeardown]
    · simp only [Outcome.after, cw_run]
      split_ifs <;> simp_all [List.filter_append, idleLoop_teardown, Call.isTeardown]

/-! ## Claims about the two programs -/

/-- Counterexample to C6 as stated: when the first drain of the event queue delivers a quit
event, `main` of `mr.cpp` still issues the five draw calls of that iteration after the
`SDL_PollEvent` that delivered it. -/
theorem quit_frame_is_still_drawn :
    mr_main ieee quitWorld =
      ⟨[Call.SDL_Init, Call.SDL_CreateWindow "SDL3 Smooth Movement" 800 600 false,
        Call.SDL_CreateRenderer 1 (some "vulkan"),
        Call.SDL_SetRenderVSync 2 1, Call.cout "VSync was enabled successfully.",
        Call.cout "Available Render Drivers:", Call.SDL_GetNumRenderDrivers,
        Call.SDL_SetRenderDrawBlendMode 2, Call.SDL_GetPerformanceCounter,
        Call.SDL_GetPerformanceCounter, Call.SDL_GetPerformanceFrequency,
        Call.SDL_PollEvent (some Event.QUIT), Call.SDL_PollEvent none,
        Call.SDL_GetKeyboardState,
        Call.SDL_SetRenderDrawColor 2 0 200 150 255, Call.SDL_RenderClear 2,
        Call.SDL_SetRenderDrawColor 2 255 0 0 255,
        Call.SDL_RenderFillRect 2 ⟨375, 275, 50, 50⟩, Call.SDL_RenderPresent 2,
        Call.SDL_DestroyRenderer 2, Call.SDL_DestroyWindow 1, Call.SDL_Quit], some 0⟩ ∧
    quitStopsDrawing (mr_main ieee quitWorld).trace = false := by
  constructor <;> decide!

/-- Claim C6, amended.  Quit stops drawing after the current frame (movement demo): once a
quit event is received during the event drain of an iteration, that iteration is completed
(the rest of the drain, the keyboard snapshot and the five draw calls of this frame), the
loop exits at the next iteration boundary, no draw call is issued after this frame (only
the three teardown calls follow) and `main` returns 0. -/
theorem quit_completes_frame_then_stops (M : FloatModel) (w : World) (pre post : List Call)
    (h : (mr_main M w).trace = pre ++ Call.SDL_PollEvent (some Event.QUIT) :: post)
    (hfirst : Call.SDL_PollEvent (some Event.QUIT) ∉ pre) :
    ∃ polls drawn window renderer,
      (∀ c ∈ polls, ∃ e, c = Call.SDL_PollEvent (some e)) ∧
      post = polls ++ [Call.SDL_PollEvent none, Call.SDL_GetKeyboardState,
        Call.SDL_SetRenderDrawColor renderer 0 200 150 255,
        Call.SDL_RenderClear renderer,
        Call.SDL_SetRenderDrawColor renderer 255 0 0 255,
        Call.SDL_RenderFillRect renderer drawn,
        Call.SDL_RenderPresent renderer,
        Call.SDL_DestroyRenderer renderer, Call.SDL_DestroyWindow window, Call.SDL_Quit] ∧
      (mr_main M w).exit = some 0 := by
  have hm : Call.SDL_PollEvent (some Event.QUIT) ∈ (mr_main M w).trace := by rw [h]; simp
  unfold mr_main at h hm ⊢
  rw [if_neg (init_check_never_fires w.init)] at h hm ⊢
  revert h hm
  rcases w.window with _ | window
  · intro _ hm
    simp at hm
  · rcases w.renderer (some "vulkan") with _ | r1
    · rcases w.renderer (some "opengl") with _ | r2
      · intro _ hm
        simp at hm
      · intro h _
        obtain ⟨polls, drawn, h1, h2, h3⟩ :=
          mr_run_split M w window r2 _ pre post (by simp) h hfirst
        exact ⟨polls, drawn, window, r2, h1, h2, h3⟩
    · intro h _
      obtain ⟨polls, drawn, h1, h2, h3⟩ :=
        mr_run_split M w window r1 _ pre post (by simp) h hfirst
      exact ⟨polls, drawn, window, r1, h1, h2, h3⟩

/-- Witness of C6 (amended): the run `quitWorld` in binary32 arithmetic, split at its quit
event. -/
theorem quit_completes_frame_then_stops_witness :
    (mr_main ieee quitWorld).trace =
      [Call.SDL_Init, Call.SDL_CreateWindow "SDL3 Smooth Movement" 800 600 false,
        Call.SDL_CreateRenderer 1 (some "vulkan"),
        Call.SDL_SetRenderVSync 2 1, Call.cout "VSync was enabled successfully.",
        Call.cout "Available Render Drivers:", Call.SDL_GetNumRenderDrivers,
        Call.SDL_SetRenderDrawBlendMode 2, Call.SDL_GetPerformanceCounter,
        Call.SDL_GetPerformanceCounter, Call.SDL_GetPerformanceFrequency] ++
      Call.SDL_PollEvent (some Event.QUIT) ::
        [Call.SDL_PollEvent none, Call.SDL_GetKeyboardState,
         Call.SDL_SetRenderDrawColor 2 0 200 150 255, Call.SDL_RenderClear 2,
         Call.SDL_SetRenderDrawColor 2 255 0 0 255,
         Call.SDL_RenderFillRect 2 ⟨375, 275, 50, 50⟩, Call.SDL_RenderPresent 2,
         Call.SDL_DestroyRenderer 2, Call.SDL_DestroyWindow 1, Call.SDL_Quit] ∧
    (∃ polls drawn window renderer,
      (∀ c ∈ polls, ∃ e, c = Call.SDL_PollEvent (some e)) ∧
      [Call.SDL_PollEvent none, Call.SDL_GetKeyboardState,
         Call.SDL_SetRenderDrawColor 2 0 200 150 255, Call.SDL_RenderClear 2,
         Call.SDL_SetRenderDrawColor 2 255 0 0 255,
         Call.SDL_RenderFillRect 2 ⟨375, 275, 50, 50⟩, Call.SDL_RenderPresent 2,
         Call.SDL_DestroyRenderer 2, Call.SDL_DestroyWindow 1, Call.SDL_Quit] =
        polls ++ [Call.SDL_PollEvent none, Call.SDL_GetKeyboardState,
          Call.SDL_SetRenderDrawColor renderer 0 200 150 255,
          Call.SDL_RenderClear renderer,
          Call.SDL_SetRenderDrawColor renderer 255 0 0 255,
          Call.SDL_RenderFillRect renderer drawn,
          Call.SDL_RenderPresent renderer,
          Call.SDL_DestroyRenderer renderer, Call.SDL_DestroyWindow window, Call.SDL_Quit] ∧
      (mr_main ieee quitWorld).exit = some 0) :=
  ⟨by decide!,
   quit_completes_frame_then_stops ieee quitWorld
     [Call.SDL_Init, Call.SDL_CreateWindow "SDL3 Smooth Movement" 800 600 false,
      Call.SDL_CreateRenderer 1 (some "vulkan"),
      Call.SDL_SetRenderVSync 2 1, Call.cout "VSync was enabled successfully.",
      Call.cout "Available Render Drivers:", Call.SDL_GetNumRenderDrivers,
      Call.SDL_SetRenderDrawBlendMode 2, Call.SDL_GetPerformanceCounter,
      Call.SDL_GetPerformanceCounter, Call.SDL_GetPerformanceFrequency]
     [Call.SDL_PollEvent none, Call.SDL_GetKeyboardState,
      Call.SDL_SetRenderDrawColor 2 0 200 150 255, Call.SDL_RenderClear 2,
      Call.SDL_SetRenderDrawColor 2 255 0 0 255,
      Call.SDL_RenderFillRect 2 ⟨375, 275, 50, 50⟩, Call.SDL_RenderPresent 2,
      Call.SDL_DestroyRenderer 2, Call.SDL_DestroyWindow 1, Call.SDL_Quit]
     (by decide!) (by decide!)⟩

/-- Claim C7 at its failing input.  `main` of `cw.cpp` obtains a renderer (handle 2) and
returns 0 after a quit event without ever calling `SDL_DestroyRenderer`: its trace on
`quitWorld` is the list below, and in no run at all does it destroy a renderer. -/
theorem cw_main_never_destroys_renderer :
    cw_main quitWorld =
      ⟨[Call.SDL_Init, Call.SDL_CreateWindow "SDL3 Window" 800 600 true,
        Call.SDL_CreateRenderer 1 none,
        Call.SDL_SetRenderDrawBlendMode 2, Call.SDL_SetRenderDrawColor 2 56 69 90 255,
        Call.SDL_RenderClear 2, Call.SDL_RenderPresent 2,
        Call.SDL_PollEvent (some Event.QUIT), Call.SDL_PollEvent none,
        Call.SDL_DestroyWindow 1, Call.SDL_Quit], some 0⟩ ∧
    ∀ (w : World) (renderer : Handle), Call.SDL_DestroyRenderer renderer ∉ (cw_main w).trace := by
  refine ⟨by decide!, ?_⟩
  intro w renderer hmem
  have hf : Call.SDL_DestroyRenderer renderer ∈ (cw_main w).trace.filter Call.isTeardown :=
    List.mem_filter.2 ⟨hmem, rfl⟩
  rw [cw_main_teardown] at hf
  revert hf
  rcases w.window with _ | window
  · simp
  · rcases w.renderer none with _ | r
    · simp
    · simp only []
      split_ifs <;> simp

/-- Claim C8 at its failing input.  When `SDL_Init` returns `false` the test
`SDL_Init(SDL_INIT_VIDEO) < 0` is false, so both programs go on exactly as after a
successful initialization: the second action of every such run is `SDL_CreateWindow`, and
on `initFailsWorld` the message written is the one of the window failure, followed by
`SDL_Quit`. -/
theorem init_failure_goes_undetected (M : FloatModel) (w : World) :
    mr_main M { w with init := false } = mr_main M { w with init := true } ∧
    cw_main { w with init := false } = cw_main { w with init := true } ∧
    (∃ rest, (mr_main M { w with init := false }).trace =
      Call.SDL_Init :: Call.SDL_CreateWindow "SDL3 Smooth Movement" 800 600 false :: rest) ∧
    (∃ rest, (cw_main { w with init := false }).trace =
      Call.SDL_Init :: Call.SDL_CreateWindow "SDL3 Window" 800 600 true :: rest) ∧
    mr_main ieee initFailsWorld =
      ⟨[Call.SDL_Init, Call.SDL_CreateWindow "SDL3 Smooth Movement" 800 600 false,
        Call.SDL_GetError, Call.cerr "SDL_CreateWindow Error: No available video device",
        Call.SDL_Quit], some 1⟩ ∧
    cw_main initFailsWorld =
      ⟨[Call.SDL_Init, Call.SDL_CreateWindow "SDL3 Window" 800 600 true,
        Call.SDL_GetError, Call.cerr "SDL_CreateWindow Error: No available video device",
        Call.SDL_Quit], some 1⟩ := by
  refine ⟨?_, ?_, ?_, ?_, by decide!, by decide!⟩
  · unfold mr_main
    rw [if_neg (init_check_never_fires _), if_neg (init_check_never_fires _)]
    rfl
  · unfold cw_main
    rw [if_neg (init_check_never_fires _), if_neg (init_check_never_fires _)]
    rfl
  · unfold mr_main
    rw [if_neg (init_check_never_fires _)]
    simp only []
    rcases w.window with _ | window
    · exact ⟨_, rfl⟩
    · rcases w.renderer (some "vulkan") with _ | r1
      · rcases w.renderer (some "opengl") with _ | r2
        · exact ⟨_, rfl⟩
        · exact ⟨_, rfl⟩
      · exact ⟨_, rfl⟩
  · unfold cw_main
    rw [if_neg (init_check_never_fires _)]
    simp only []
    rcases w.window with _ | window
    · exact ⟨_, rfl⟩
    · rcases w.renderer none with _ | r1
      · exact ⟨_, rfl⟩
      · exact ⟨_, rfl⟩

/-- Claim C9.  Exit status of the movement demo after successful initialization: `main`
returns 1 if and only if window creation fails or both renderer creation attempts fail; if
the first attempt fails and the fallback succeeds the run continues with the fallback
renderer exactly as `mr_run` describes; in every non-failing run `main` returns 0 exactly
when one of the observed frames delivers a quit event, and it has not returned as long as
no frame has delivered one. -/
theorem mr_exit_status (M : FloatModel) (w : World) (hinit : w.init = true) :
    ((mr_main M w).exit = some 1 ↔
      (w.window = none ∨
        (w.renderer (some "vulkan") = none ∧ w.renderer (some "opengl") = none))) ∧
    (∀ window renderer, w.window = some window → w.renderer (some "vulkan") = none →
      w.renderer (some "opengl") = some renderer →
      (mr_main M w).exit = (mr_run M w window renderer).exit ∧
      (mr_run M w window renderer).trace <:+ (mr_main M w).trace) ∧
    (¬ (w.window = none ∨
        (w.renderer (some "vulkan") = none ∧ w.renderer (some "opengl") = none)) →
      ((mr_main M w).exit = some 0 ↔ ∃ f ∈ w.frames, Event.QUIT ∈ f.events) ∧
      ((mr_main M w).exit = none ↔ ∀ f ∈ w.frames, Event.QUIT ∉ f.events)) := by
  have hlt : ¬ boolToInt w.init < 0 := by rw [hinit]; decide
  unfold mr_main
  rw [if_neg hlt]
  rcases hw : w.window with _ | window
  · simp
  · rcases hv : w.renderer (some "vulkan") with _ | r1
    · rcases ho : w.renderer (some "opengl") with _ | r2
      · simp
      · simp only [Outcome.after, mr_run_exit]
        refine ⟨?_, ?_, ?_⟩
        · split_ifs <;> simp
        · intro window2 renderer2 h1 _ h3
          cases h1
          cases h3
          exact ⟨trivial, List.suffix_append _ _⟩
        · intro _
          split_ifs with h <;> simp_all
    · simp only [Outcome.after, mr_run_exit]
      refine ⟨?_, ?_, ?_⟩
      · split_ifs <;> simp
      · intro window2 renderer2 _ h2
        cases h2
      · intro _
        split_ifs with h <;> simp_all

/-- Witness of C9: the run `fallbackWorld`, where the first renderer attempt fails, the
fallback succeeds and the first frame delivers a quit event; `main` returns 0. -/
theorem mr_exit_status_witness :
    fallbackWorld.init = true ∧
    ¬ (fallbackWorld.window = none ∨
      (fallbackWorld.renderer (some "vulkan") = none ∧
        fallbackWorld.renderer (some "opengl") = none)) ∧
    (∃ f ∈ fallbackWorld.frames, Event.QUIT ∈ f.events) ∧
    (mr_main ieee fallbackWorld).exit = some 0 := by
  have hq : ∃ f ∈ fallbackWorld.frames, Event.QUIT ∈ f.events :=
    ⟨⟨1000, 1000, [Event.QUIT], keysNone⟩, by simp [fallbackWorld, quitWorld], by simp⟩
  have hok : ¬ (fallbackWorld.window = none ∨
      (fallbackWorld.renderer (some "vulkan") = none ∧
        fallbackWorld.renderer (some "opengl") = none)) := by
    simp [fallbackWorld, quitWorld]
  exact ⟨rfl, hok, hq, (((mr_exit_status ieee fallbackWorld rfl).2.2 hok).1).2 hq⟩

end SDL3Practice
